import Mathlib

/-!
Verification of the `color_bits` crate: a shallow embedding of `src/lib.rs`.

`U8Iterator` iterates the bits of a `u8` from most-significant to
least-significant, one `Bool` per bit.  `ColorIterator` chains three such
byte iterators over the channels of a `Color`, in the order given by a
`ColorOrder` policy (`OrderGBR` being the green-red-blue instance).

Machine `u8` values are modelled as `Nat` with explicit `% 256` where the
source wraps (the left shift in `U8Iterator::next`); `usize` counters are
`Nat`.  Rust's fallible `Iterator::next` is modelled as a pure function
returning the produced `Option Bool` together with the successor state.
-/

namespace ColorBits

/-- Embeds `bits::U8Iterator`: a working `u8` value and a remaining-bit count. -/
structure U8Iterator where
  value : Nat
  remaining : Nat
deriving DecidableEq, Repr

/-- Embeds `U8Iterator::empty`: zero remaining bits, value 0. -/
def U8Iterator.empty : U8Iterator := ⟨0, 0⟩

/-- Embeds `U8Iterator::reset_to`: unconditionally set the value and 8 remaining bits. -/
def U8Iterator.reset_to (_it : U8Iterator) (value : Nat) : U8Iterator := ⟨value, 8⟩

/-- Embeds `impl From<u8> for U8Iterator`: `empty()` followed by `reset_to(value)`. -/
def U8Iterator.fromU8 (value : Nat) : U8Iterator := U8Iterator.empty.reset_to value

/-- Embeds `U8Iterator::next` (the `Iterator` impl): if no bits remain, yield
nothing and leave the state unchanged; otherwise test the MSB against the mask
`0b1000_0000`, decrement `remaining`, and left-shift the value inside 8 bits. -/
def U8Iterator.next (it : U8Iterator) : Option Bool × U8Iterator :=
  if it.remaining = 0 then
    (none, it)
  else
    (some (decide (0 < it.value &&& 128)), ⟨(it.value <<< 1) % 256, it.remaining - 1⟩)

/-- Embeds `U8Iterator::size_hint`: exact lower and upper bound, both `remaining`. -/
def U8Iterator.size_hint (it : U8Iterator) : Nat × Option Nat :=
  (it.remaining, some it.remaining)

/-- Rust's `Iterator::collect` on a `U8Iterator`: pull until `next` yields
nothing, gathering the produced bits.  Terminates because each successful
pull decrements `remaining`. -/
def U8Iterator.collect (it : U8Iterator) : List Bool :=
  match h : it.next with
  | (none, _) => []
  | (some b, it2) => b :: it2.collect
termination_by it.remaining
decreasing_by
  unfold U8Iterator.next at h
  split at h
  · simp at h
  · rename_i hr
    injection h with h1 h2
    subst h2
    show it.remaining - 1 < it.remaining
    omega

/-- The trace of `n` consecutive pulls on a `U8Iterator`: the list of outputs
(one `Option Bool` per pull) together with the final state. -/
def U8Iterator.runN : Nat → U8Iterator → List (Option Bool) × U8Iterator
  | 0, it => ([], it)
  | n + 1, it =>
    let s := it.next
    let rest := U8Iterator.runN n s.2
    (s.1 :: rest.1, rest.2)

/-- The state of a `U8Iterator` after `n` pulls. -/
def U8Iterator.pullN : Nat → U8Iterator → U8Iterator
  | 0, it => it
  | n + 1, it => U8Iterator.pullN n it.next.2

/-- The 8 bits of a byte, most-significant first, as the spec describes the
output of a full byte-bit sequence: position `i` holds bit `7 - i`. -/
def byteBitsMSB (v : Nat) : List Bool :=
  (List.range 8).map (fun i => v.testBit (7 - i))

/-- Embeds `color::Color`, fields in the declared order green, red, blue. -/
structure Color where
  green : Nat
  red : Nat
  blue : Nat
deriving DecidableEq, Repr

/-- Embeds `Color::new(red, green, blue)`. -/
def Color.new (red green blue : Nat) : Color :=
  { red := red, green := green, blue := blue }

/-- Embeds `color::Component`. -/
inductive Component where
  | Red
  | Green
  | Blue
deriving DecidableEq, Repr

/-- Embeds `Component::select_from`. -/
def Component.select_from : Component → Color → Nat
  | Component.Green, color => color.green
  | Component.Red, color => color.red
  | Component.Blue, color => color.blue

/-- Embeds the `ColorOrder` trait: a first component and a successor map.
The Rust trait is dispatched statically; here a policy is passed as a value. -/
structure ColorOrder where
  first : Component
  next : Component → Option Component

/-- Embeds `OrderGBR`: green, then red, then blue. -/
def OrderGBR : ColorOrder where
  first := Component.Green
  next
    | Component.Green => some Component.Red
    | Component.Red => some Component.Blue
    | Component.Blue => none

/-- Embeds `color::ColorIterator`: the owned color, the embedded byte
iterator, and the optional current-component cursor.  The `Order` type
parameter of the Rust struct is passed to the operations instead. -/
structure ColorIterator where
  color : Color
  iter : U8Iterator
  component : Option Component
deriving DecidableEq, Repr

/-- Embeds `ColorIterator::new`: cursor at `Order::first()`, byte iterator
seeded from that component's channel. -/
def ColorIterator.new (ord : ColorOrder) (color : Color) : ColorIterator :=
  { color := color
    iter := U8Iterator.fromU8 (ord.first.select_from color)
    component := some ord.first }

/-- Embeds `Color::into_iter_gbr`. -/
def Color.into_iter_gbr (c : Color) : ColorIterator :=
  ColorIterator.new OrderGBR c

/-- Embeds `ColorIterator::next`: drain the embedded byte iterator; on its
exhaustion advance the cursor via the policy, reseed, and pull the first bit
of the new channel, or yield nothing when the policy (or the cursor) is done. -/
def ColorIterator.next (ord : ColorOrder) (it : ColorIterator) : Option Bool × ColorIterator :=
  match it.iter.next with
  | (some value, iter2) => (some value, { it with iter := iter2 })
  | (none, iter2) =>
    match it.component with
    | some comp =>
      match ord.next comp with
      | some comp2 =>
        let iter3 := iter2.reset_to (comp2.select_from it.color)
        let s := iter3.next
        (s.1, { it with iter := s.2, component := some comp2 })
      | none => (none, { it with iter := iter2, component := none })
    | none => (none, { it with iter := iter2 })

/-- Rust's `collect` on a `ColorIterator`, with explicit fuel: pull until
`next` yields nothing or the fuel runs out, gathering the produced bits.
For any fuel large enough that the loop reaches the terminal `none`, this is
the result of the unbounded Rust loop. -/
def ColorIterator.collectFuel (ord : ColorOrder) : Nat → ColorIterator → List Bool
  | 0, _ => []
  | fuel + 1, it =>
    match ColorIterator.next ord it with
    | (some b, it2) => b :: ColorIterator.collectFuel ord fuel it2
    | (none, _) => []

/-- The state of a `ColorIterator` after `n` pulls. -/
def ColorIterator.pullN (ord : ColorOrder) : Nat → ColorIterator → ColorIterator
  | 0, it => it
  | n + 1, it => ColorIterator.pullN ord n (ColorIterator.next ord it).2

/-- The well-formedness precondition on a `ColorOrder` policy: starting from
`first`, repeated `next` visits each of the 3 components exactly once and
then returns none. -/
def ColorOrder.WellFormed (ord : ColorOrder) : Prop :=
  ∃ c1 c2 : Component,
    ([ord.first, c1, c2] : List Component).Perm
        [Component.Red, Component.Green, Component.Blue] ∧
      ord.next ord.first = some c1 ∧ ord.next c1 = some c2 ∧ ord.next c2 = none

/-! ### Helper lemmas about `U8Iterator` -/

/-- Pulling from an exhausted byte iterator yields nothing and changes nothing. -/
lemma U8Iterator.next_zero (it : U8Iterator) (h : it.remaining = 0) :
    it.next = (none, it) := by
  simp [U8Iterator.next, h]

/-- Pulling from a non-exhausted byte iterator yields the MSB and shifts. -/
lemma U8Iterator.next_pos (it : U8Iterator) (h : it.remaining ≠ 0) :
    it.next =
      (some (decide (0 < it.value &&& 128)),
        ⟨(it.value <<< 1) % 256, it.remaining - 1⟩) := by
  simp [U8Iterator.next, h]

/-- Collecting an exhausted byte iterator gives the empty list. -/
lemma U8Iterator.collect_zero (it : U8Iterator) (h : it.remaining = 0) :
    it.collect = [] := by
  rw [U8Iterator.collect, U8Iterator.next_zero it h]

/-- Collecting a non-exhausted byte iterator gives the MSB followed by the
collection of the shifted state. -/
lemma U8Iterator.collect_succ (it : U8Iterator) (h : it.remaining ≠ 0) :
    it.collect =
      decide (0 < it.value &&& 128) ::
        U8Iterator.collect ⟨(it.value <<< 1) % 256, it.remaining - 1⟩ := by
  rw [U8Iterator.collect, U8Iterator.next_pos it h]

/-- The MSB test against the mask `0b1000_0000` computes bit 7. -/
lemma decide_and_128 (v : Nat) : decide (0 < v &&& 128) = v.testBit 7 := by
  have h : v &&& 128 = (v.testBit 7).toNat * 2 ^ 7 := by
    have := Nat.and_two_pow v 7
    norm_num at this ⊢
    exact this
  rw [h]
  cases hv : v.testBit 7 <;> simp

/-- Peeling one position off the MSB-first bit listing: the head is bit 7 and
the tail is the listing of the value shifted left by one inside 8 bits. -/
lemma range_testBit_succ (v r : Nat) (hr : r ≤ 7) :
    (List.range (r + 1)).map (fun i => v.testBit (7 - i)) =
      decide (0 < v &&& 128) ::
        (List.range r).map (fun i => ((v <<< 1) % 256).testBit (7 - i)) := by
  rw [List.range_succ_eq_map]
  simp only [List.map_cons, List.map_map]
  congr 1
  · simp [decide_and_128]
  · apply List.map_congr_left
    intro i hi
    simp only [List.mem_range] at hi
    show v.testBit (7 - (i + 1)) = ((v <<< 1) % 256).testBit (7 - i)
    have h256 : (256 : Nat) = 2 ^ 8 := by norm_num
    rw [h256, Nat.testBit_mod_two_pow, Nat.testBit_shiftLeft]
    have h1 : 7 - i < 8 := by omega
    have h2 : 7 - i ≥ 1 := by omega
    have h3 : 7 - i - 1 = 7 - (i + 1) := by omega
    simp [h1, h2, h3]

/-- Collecting a byte iterator state with `r ≤ 8` remaining bits yields the
top `r` bits of the working value, most-significant first. -/
lemma collect_state (v r : Nat) (hr : r ≤ 8) :
    U8Iterator.collect ⟨v, r⟩ = (List.range r).map (fun i => v.testBit (7 - i)) := by
  induction r generalizing v with
  | zero => simp [U8Iterator.collect_zero]
  | succ r ih =>
    rw [U8Iterator.collect_succ ⟨v, r + 1⟩ (by simp)]
    simp only [Nat.succ_sub_one]
    rw [ih ((v <<< 1) % 256) (by omega)]
    exact (range_testBit_succ v r (by omega)).symm

/-- An exhausted byte iterator stays exhausted: `n` pulls all yield nothing
and leave the state unchanged. -/
lemma runN_stuck (it : U8Iterator) (h : it.remaining = 0) (n : Nat) :
    U8Iterator.runN n it = (List.replicate n none, it) := by
  induction n with
  | zero => simp [U8Iterator.runN]
  | succ n ih => simp [U8Iterator.runN, U8Iterator.next_zero it h, ih, List.replicate_succ]

/-- After `k ≤ remaining` pulls, exactly `k` fewer bits remain. -/
lemma pullN_remaining (k : Nat) : ∀ it : U8Iterator, k ≤ it.remaining →
    (U8Iterator.pullN k it).remaining = it.remaining - k := by
  induction k with
  | zero => intro it _; simp [U8Iterator.pullN]
  | succ k ih =>
    intro it h
    rw [U8Iterator.pullN, U8Iterator.next_pos it (by omega)]
    rw [ih _ (by simp; omega)]
    simp
    omega

/-! ### Helper lemmas about `ColorIterator` -/

/-- While the embedded byte iterator has bits, a pull of the color iterator
is exactly a pull of the byte iterator; the cursor is untouched. -/
lemma colorNext_pos (ord : ColorOrder) (c : Color) (v r : Nat) (copt : Option Component)
    (h : r ≠ 0) :
    ColorIterator.next ord ⟨c, ⟨v, r⟩, copt⟩ =
      (some (decide (0 < v &&& 128)), ⟨c, ⟨(v <<< 1) % 256, r - 1⟩, copt⟩) := by
  rw [ColorIterator.next]
  rw [U8Iterator.next_pos ⟨v, r⟩ h]

/-- With the byte iterator exhausted and the policy yielding a successor, one
pull advances the cursor, reseeds, and emits bit 7 of the new channel. -/
lemma colorNext_advance (ord : ColorOrder) (c : Color) (v : Nat) (comp comp2 : Component)
    (h : ord.next comp = some comp2) :
    ColorIterator.next ord ⟨c, ⟨v, 0⟩, some comp⟩ =
      (some (decide (0 < comp2.select_from c &&& 128)),
        ⟨c, ⟨(comp2.select_from c <<< 1) % 256, 7⟩, some comp2⟩) := by
  rw [ColorIterator.next]
  rw [U8Iterator.next_zero ⟨v, 0⟩ rfl]
  simp [h, U8Iterator.reset_to, U8Iterator.next]

/-- With the byte iterator exhausted and the policy done, one pull clears the
cursor and yields nothing. -/
lemma colorNext_done (ord : ColorOrder) (c : Color) (v : Nat) (comp : Component)
    (h : ord.next comp = none) :
    ColorIterator.next ord ⟨c, ⟨v, 0⟩, some comp⟩ = (none, ⟨c, ⟨v, 0⟩, none⟩) := by
  rw [ColorIterator.next]
  rw [U8Iterator.next_zero ⟨v, 0⟩ rfl]
  simp [h]

/-- A terminal color iterator (absent cursor, exhausted byte iterator) yields
nothing and is left unchanged by a pull. -/
lemma colorNext_terminal (ord : ColorOrder) (it : ColorIterator)
    (hc : it.component = none) (hr : it.iter.remaining = 0) :
    ColorIterator.next ord it = (none, it) := by
  obtain ⟨cc, itr, comp⟩ := it
  simp only at hc hr
  subst hc
  rw [ColorIterator.next, U8Iterator.next_zero itr hr]

/-- Once the byte iterator is exhausted, the stale working value does not
influence the rest of the collection. -/
lemma collectFuel_value_irrel (ord : ColorOrder) (fuel : Nat) (c : Color) (v w : Nat)
    (copt : Option Component) :
    ColorIterator.collectFuel ord fuel ⟨c, ⟨v, 0⟩, copt⟩ =
      ColorIterator.collectFuel ord fuel ⟨c, ⟨w, 0⟩, copt⟩ := by
  cases fuel with
  | zero => rfl
  | succ fuel =>
    rw [ColorIterator.collectFuel, ColorIterator.collectFuel]
    cases copt with
    | none =>
      rw [colorNext_terminal ord _ rfl rfl, colorNext_terminal ord _ rfl rfl]
    | some comp =>
      cases h : ord.next comp with
      | none => rw [colorNext_done ord c v comp h, colorNext_done ord c w comp h]
      | some comp2 =>
        rw [colorNext_advance ord c v comp comp2 h, colorNext_advance ord c w comp comp2 h]

/-- Draining the embedded byte iterator: with `r ≤ 8` bits left in the current
channel and fuel at least `r`, collection emits those `r` bits and continues
from an exhausted byte iterator with the cursor unchanged. -/
lemma collectFuel_drain (ord : ColorOrder) (c : Color) (copt : Option Component) :
    ∀ r v fuel : Nat, r ≤ 8 → r ≤ fuel →
      ColorIterator.collectFuel ord fuel ⟨c, ⟨v, r⟩, copt⟩ =
        (List.range r).map (fun i => v.testBit (7 - i)) ++
          ColorIterator.collectFuel ord (fuel - r) ⟨c, ⟨0, 0⟩, copt⟩ := by
  intro r
  induction r with
  | zero =>
    intro v fuel _ _
    simpa using collectFuel_value_irrel ord fuel c v 0 copt
  | succ r ih =>
    intro v fuel hr hf
    obtain ⟨f, rfl⟩ : ∃ f, fuel = f + 1 := ⟨fuel - 1, by omega⟩
    have hfr : f + 1 - (r + 1) = f - r := by omega
    rw [hfr]
    rw [ColorIterator.collectFuel]
    rw [colorNext_pos ord c v (r + 1) copt (by omega)]
    simp only [Nat.succ_sub_one]
    rw [ih ((v <<< 1) % 256) f (by omega) (by omega)]
    rw [range_testBit_succ v r (by omega)]
    simp only [List.cons_append]

/-- With the byte iterator exhausted and a successor channel available,
collection proceeds exactly as from the freshly reseeded successor state. -/
lemma collectFuel_advance (ord : ColorOrder) (c : Color) (v fuel : Nat)
    (comp comp2 : Component) (h : ord.next comp = some comp2) (hf : 1 ≤ fuel) :
    ColorIterator.collectFuel ord fuel ⟨c, ⟨v, 0⟩, some comp⟩ =
      ColorIterator.collectFuel ord fuel
        ⟨c, ⟨comp2.select_from c, 8⟩, some comp2⟩ := by
  obtain ⟨f, rfl⟩ : ∃ f, fuel = f + 1 := ⟨fuel - 1, by omega⟩
  rw [ColorIterator.collectFuel, ColorIterator.collectFuel]
  rw [colorNext_advance ord c v comp comp2 h]
  rw [colorNext_pos ord c (comp2.select_from c) 8 (some comp2) (by omega)]

/-- With the byte iterator exhausted and the policy done, collection stops. -/
lemma collectFuel_done (ord : ColorOrder) (c : Color) (v fuel : Nat) (comp : Component)
    (h : ord.next comp = none) :
    ColorIterator.collectFuel ord fuel ⟨c, ⟨v, 0⟩, some comp⟩ = [] := by
  cases fuel with
  | zero => rfl
  | succ fuel =>
    rw [ColorIterator.collectFuel, colorNext_done ord c v comp h]

/-- The full chain: a policy that runs `c0, c1, c2` and then stops makes the
color iterator collect the MSB-first bits of those three channels in order,
for any fuel of at least 24. -/
lemma collectFuel_chain (ord : ColorOrder) (c : Color) (c0 c1 c2 : Component)
    (h0 : ord.first = c0) (h1 : ord.next c0 = some c1) (h2 : ord.next c1 = some c2)
    (h3 : ord.next c2 = none) (fuel : Nat) (hf : 24 ≤ fuel) :
    ColorIterator.collectFuel ord fuel (ColorIterator.new ord c) =
      byteBitsMSB (c0.select_from c) ++ byteBitsMSB (c1.select_from c) ++
        byteBitsMSB (c2.select_from c) := by
  obtain ⟨k, rfl⟩ : ∃ k, fuel = 24 + k := ⟨fuel - 24, by omega⟩
  show ColorIterator.collectFuel ord (24 + k)
      ⟨c, U8Iterator.fromU8 (ord.first.select_from c), some ord.first⟩ = _
  rw [h0]
  show ColorIterator.collectFuel ord (24 + k)
      ⟨c, ⟨c0.select_from c, 8⟩, some c0⟩ = _
  rw [collectFuel_drain ord c (some c0) 8 (c0.select_from c) (24 + k) (by omega) (by omega)]
  rw [collectFuel_advance ord c 0 (24 + k - 8) c0 c1 h1 (by omega)]
  rw [collectFuel_drain ord c (some c1) 8 (c1.select_from c) (24 + k - 8) (by omega) (by omega)]
  rw [collectFuel_advance ord c 0 (24 + k - 8 - 8) c1 c2 h2 (by omega)]
  rw [collectFuel_drain ord c (some c2) 8 (c2.select_from c) (24 + k - 8 - 8) (by omega) (by omega)]
  rw [collectFuel_done ord c 0 (24 + k - 8 - 8 - 8) c2 h3]
  simp [byteBitsMSB]

/-- Pull counts add up: `a + b` pulls is `a` pulls followed by `b` pulls. -/
lemma colorPullN_add (ord : ColorOrder) (b : Nat) :
    ∀ (a : Nat) (it : ColorIterator),
      ColorIterator.pullN ord (a + b) it =
        ColorIterator.pullN ord b (ColorIterator.pullN ord a it) := by
  intro a
  induction a with
  | zero => intro it; rw [Nat.zero_add]; rfl
  | succ a ih =>
    intro it
    have h : a + 1 + b = (a + b) + 1 := by omega
    rw [h, ColorIterator.pullN, ColorIterator.pullN]
    exact ih (ColorIterator.next ord it).2

/-- Draining the current channel in the state view: `r` pulls on a state with
`r` remaining bits exhaust the byte iterator and leave the cursor unchanged. -/
lemma colorPullN_exhaust (ord : ColorOrder) (c : Color) (copt : Option Component) :
    ∀ r v : Nat, ∃ w : Nat,
      ColorIterator.pullN ord r ⟨c, ⟨v, r⟩, copt⟩ = ⟨c, ⟨w, 0⟩, copt⟩ := by
  intro r
  induction r with
  | zero => intro v; exact ⟨v, rfl⟩
  | succ r ih =>
    intro v
    rw [ColorIterator.pullN, colorNext_pos ord c v (r + 1) copt (by omega)]
    simp only [Nat.succ_sub_one]
    exact ih ((v <<< 1) % 256)

/-- Advancing to the successor channel in the state view. -/
lemma colorPullN_advance (ord : ColorOrder) (c : Color) (v : Nat)
    (comp comp2 : Component) (h : ord.next comp = some comp2) (n : Nat) :
    ColorIterator.pullN ord (n + 1) ⟨c, ⟨v, 0⟩, some comp⟩ =
      ColorIterator.pullN ord n
        ⟨c, ⟨(comp2.select_from c <<< 1) % 256, 7⟩, some comp2⟩ := by
  rw [ColorIterator.pullN, colorNext_advance ord c v comp comp2 h]

/-- A terminal state is a fixed point of pulling. -/
lemma colorPullN_terminal (ord : ColorOrder) (it : ColorIterator)
    (hc : it.component = none) (hr : it.iter.remaining = 0) :
    ∀ n : Nat, ColorIterator.pullN ord n it = it := by
  intro n
  induction n with
  | zero => rfl
  | succ n ih =>
    rw [ColorIterator.pullN, colorNext_terminal ord it hc hr]
    exact ih

/-- After exactly 24 pulls under the green-red-blue order, all bits have been
produced but the cursor still points at the blue channel. -/
lemma colorPullN_24 (c : Color) :
    ∃ w : Nat, ColorIterator.pullN OrderGBR 24 c.into_iter_gbr =
      ⟨c, ⟨w, 0⟩, some Component.Blue⟩ := by
  obtain ⟨w1, hw1⟩ := colorPullN_exhaust OrderGBR c (some Component.Green) 8 c.green
  obtain ⟨w2, hw2⟩ :=
    colorPullN_exhaust OrderGBR c (some Component.Red) 7 ((c.red <<< 1) % 256)
  obtain ⟨w3, hw3⟩ :=
    colorPullN_exhaust OrderGBR c (some Component.Blue) 7 ((c.blue <<< 1) % 256)
  refine ⟨w3, ?_⟩
  show ColorIterator.pullN OrderGBR (8 + 16)
      ⟨c, ⟨c.green, 8⟩, some Component.Green⟩ = _
  rw [colorPullN_add OrderGBR 16 8, hw1]
  show ColorIterator.pullN OrderGBR (15 + 1) _ = _
  rw [colorPullN_advance OrderGBR c w1 Component.Green Component.Red rfl 15]
  simp only [Component.select_from]
  show ColorIterator.pullN OrderGBR (7 + 8) _ = _
  rw [colorPullN_add OrderGBR 8 7, hw2]
  show ColorIterator.pullN OrderGBR (7 + 1) _ = _
  rw [colorPullN_advance OrderGBR c w2 Component.Red Component.Blue rfl 7]
  simp only [Component.select_from]
  exact hw3

/-! ### Invariant of `U8Iterator` -/

/-- The state invariant of a byte iterator: at most 8 bits remain and the
working value fits in 8 bits. -/
def U8Iterator.Inv (it : U8Iterator) : Prop :=
  it.remaining ≤ 8 ∧ it.value < 256

/-! ### The claims -/

/-- Claim C1: for every color, collecting the full iterator obtained via
`into_iter_gbr` yields exactly 24 booleans: the MSB-first bits of the green
channel, then of the red channel, then of the blue channel. -/
theorem C1_gbr_collect (c : Color) (fuel : Nat)
    (hg : c.green < 256) (hr : c.red < 256) (hb : c.blue < 256) (hf : 24 ≤ fuel) :
    ColorIterator.collectFuel OrderGBR fuel c.into_iter_gbr =
      byteBitsMSB c.green ++ byteBitsMSB c.red ++ byteBitsMSB c.blue ∧
    (ColorIterator.collectFuel OrderGBR fuel c.into_iter_gbr).length = 24 := by
  have h := collectFuel_chain OrderGBR c Component.Green Component.Red Component.Blue
    rfl rfl rfl rfl fuel hf
  simp only [Component.select_from] at h
  have h2 : ColorIterator.collectFuel OrderGBR fuel c.into_iter_gbr =
      byteBitsMSB c.green ++ byteBitsMSB c.red ++ byteBitsMSB c.blue := h
  exact ⟨h2, by rw [h2]; simp [byteBitsMSB]⟩

/-- Witness for C1 at the mixed color of the spec's examples. -/
theorem C1_gbr_collect_witness :
    ColorIterator.collectFuel OrderGBR 24 (Color.new 255 170 225).into_iter_gbr =
      byteBitsMSB (Color.new 255 170 225).green ++ byteBitsMSB (Color.new 255 170 225).red ++
        byteBitsMSB (Color.new 255 170 225).blue ∧
    (ColorIterator.collectFuel OrderGBR 24 (Color.new 255 170 225).into_iter_gbr).length = 24 :=
  C1_gbr_collect (Color.new 255 170 225) 24 (by decide) (by decide) (by decide) (by decide)

/-- Claim C2: for every byte, collecting the full byte iterator constructed
from it yields exactly 8 booleans, the binary representation MSB first. -/
theorem C2_u8_collect (v : Nat) (hv : v < 256) :
    (U8Iterator.fromU8 v).collect = byteBitsMSB v ∧
    (U8Iterator.fromU8 v).collect.length = 8 := by
  have h : (U8Iterator.fromU8 v).collect = byteBitsMSB v := collect_state v 8 (le_refl 8)
  exact ⟨h, by rw [h]; simp [byteBitsMSB]⟩

/-- Witness for C2 at the spec's example byte `0b1010_1010`. -/
theorem C2_u8_collect_witness :
    (U8Iterator.fromU8 170).collect = byteBitsMSB 170 ∧
    (U8Iterator.fromU8 170).collect.length = 8 :=
  C2_u8_collect 170 (by decide)

/-- Claim C3: for every well-formed ordering policy and every color, the
color iterator yields exactly 24 bits: the three channels, each exactly once
in the policy's order, with no gaps and no duplicated channel. -/
theorem C3_wellformed_collect (ord : ColorOrder) (c : Color) (fuel : Nat)
    (hw : ord.WellFormed) (hg : c.green < 256) (hr : c.red < 256) (hb : c.blue < 256)
    (hf : 24 ≤ fuel) :
    ∃ c0 c1 c2 : Component,
      ([c0, c1, c2] : List Component).Perm
          [Component.Red, Component.Green, Component.Blue] ∧
      ColorIterator.collectFuel ord fuel (ColorIterator.new ord c) =
        byteBitsMSB (c0.select_from c) ++ byteBitsMSB (c1.select_from c) ++
          byteBitsMSB (c2.select_from c) ∧
      (ColorIterator.collectFuel ord fuel (ColorIterator.new ord c)).length = 24 := by
  obtain ⟨c1, c2, hp, h1, h2, h3⟩ := hw
  have h := collectFuel_chain ord c ord.first c1 c2 rfl h1 h2 h3 fuel hf
  exact ⟨ord.first, c1, c2, hp, h, by rw [h]; simp [byteBitsMSB]⟩

/-- Witness for C3 at the green-red-blue policy and a concrete color. -/
theorem C3_wellformed_collect_witness :
    ∃ c0 c1 c2 : Component,
      ([c0, c1, c2] : List Component).Perm
          [Component.Red, Component.Green, Component.Blue] ∧
      ColorIterator.collectFuel OrderGBR 24 (ColorIterator.new OrderGBR (Color.new 1 2 3)) =
        byteBitsMSB (c0.select_from (Color.new 1 2 3)) ++
          byteBitsMSB (c1.select_from (Color.new 1 2 3)) ++
          byteBitsMSB (c2.select_from (Color.new 1 2 3)) ∧
      (ColorIterator.collectFuel OrderGBR 24
          (ColorIterator.new OrderGBR (Color.new 1 2 3))).length = 24 :=
  C3_wellformed_collect OrderGBR (Color.new 1 2 3) 24
    ⟨Component.Red, Component.Blue, by decide, rfl, rfl, rfl⟩
    (by decide) (by decide) (by decide) (by decide)

/-- Claim C4: with the embedded byte iterator exhausted, the cursor present,
and the policy yielding a successor component, one pull updates the cursor to
it, reseeds the byte iterator to that channel's byte, and returns that
channel's most significant bit; it never returns end-of-sequence here. -/
theorem C4_transition (ord : ColorOrder) (c : Color) (v : Nat) (comp comp2 : Component)
    (h : ord.next comp = some comp2) :
    ColorIterator.next ord ⟨c, ⟨v, 0⟩, some comp⟩ =
      (some ((comp2.select_from c).testBit 7),
        ⟨c, ⟨(comp2.select_from c <<< 1) % 256, 7⟩, some comp2⟩) ∧
    (ColorIterator.next ord ⟨c, ⟨v, 0⟩, some comp⟩).1.isSome = true := by
  have h2 := colorNext_advance ord c v comp comp2 h
  rw [decide_and_128] at h2
  exact ⟨h2, by rw [h2]; rfl⟩

/-- Witness for C4 at the green-to-red transition of the GBR policy. -/
theorem C4_transition_witness :
    ColorIterator.next OrderGBR ⟨Color.new 7 2 3, ⟨5, 0⟩, some Component.Green⟩ =
      (some ((Component.Red.select_from (Color.new 7 2 3)).testBit 7),
        ⟨Color.new 7 2 3,
          ⟨(Component.Red.select_from (Color.new 7 2 3) <<< 1) % 256, 7⟩,
          some Component.Red⟩) ∧
    (ColorIterator.next OrderGBR
        ⟨Color.new 7 2 3, ⟨5, 0⟩, some Component.Green⟩).1.isSome = true :=
  C4_transition OrderGBR (Color.new 7 2 3) 5 Component.Green Component.Red rfl

/-- Claim C5, counterexample to the claim as stated: after exactly 24 pulls
the cursor is not yet absent (it still points at the blue channel); it only
becomes absent on the following pull. -/
theorem C5_counterexample :
    (ColorIterator.pullN OrderGBR 24 (Color.new 0 0 0).into_iter_gbr).component ≠ none := by
  decide

/-- Claim C5 as amended: after 24 pulls every further pull returns
end-of-sequence; the cursor becomes absent on the 25th pull and stays absent;
a state with an absent cursor and an exhausted byte iterator is permanently
terminal and is left unchanged by a pull. -/
theorem C5_terminal (c : Color) (n : Nat) :
    (ColorIterator.next OrderGBR
        (ColorIterator.pullN OrderGBR (24 + n) c.into_iter_gbr)).1 = none ∧
    (ColorIterator.pullN OrderGBR (24 + (n + 1)) c.into_iter_gbr).component = none ∧
    ∀ (ord : ColorOrder) (it : ColorIterator),
      it.component = none → it.iter.remaining = 0 →
        ColorIterator.next ord it = (none, it) := by
  obtain ⟨w, hw⟩ := colorPullN_24 c
  have hterm : ColorIterator.next OrderGBR
      (⟨c, ⟨w, 0⟩, some Component.Blue⟩ : ColorIterator) =
        (none, ⟨c, ⟨w, 0⟩, none⟩) := colorNext_done OrderGBR c w Component.Blue rfl
  have hfix : ∀ m : Nat,
      ColorIterator.pullN OrderGBR m (⟨c, ⟨w, 0⟩, none⟩ : ColorIterator) =
        ⟨c, ⟨w, 0⟩, none⟩ := colorPullN_terminal OrderGBR _ rfl rfl
  have key : ∀ m : Nat, ColorIterator.pullN OrderGBR (24 + m) c.into_iter_gbr =
      (if m = 0 then (⟨c, ⟨w, 0⟩, some Component.Blue⟩ : ColorIterator)
        else ⟨c, ⟨w, 0⟩, none⟩) := by
    intro m
    rw [colorPullN_add OrderGBR m 24, hw]
    cases m with
    | zero => rfl
    | succ m =>
      rw [if_neg (Nat.succ_ne_zero m), ColorIterator.pullN, hterm]
      exact hfix m
  refine ⟨?_, ?_, fun ord it hc hr => colorNext_terminal ord it hc hr⟩
  · cases n with
    | zero => rw [key 0, if_pos rfl, hterm]
    | succ m =>
      rw [key (m + 1), if_neg (Nat.succ_ne_zero m),
        colorNext_terminal OrderGBR _ rfl rfl]
  · rw [key (n + 1), if_neg (Nat.succ_ne_zero n)]

/-- Witness for C5 (amended) at a concrete color and pull count. -/
theorem C5_terminal_witness :
    (ColorIterator.next OrderGBR
        (ColorIterator.pullN OrderGBR (24 + 1) (Color.new 0 0 0).into_iter_gbr)).1 = none ∧
    ColorIterator.next OrderGBR
        (⟨Color.new 0 0 0, ⟨0, 0⟩, none⟩ : ColorIterator) =
      (none, ⟨Color.new 0 0 0, ⟨0, 0⟩, none⟩) :=
  ⟨(C5_terminal (Color.new 0 0 0) 1).1,
    (C5_terminal (Color.new 0 0 0) 1).2.2 OrderGBR _ rfl rfl⟩

/-- Claim C6: `reset_to` on any state sets the remaining count to 8 and the
working value to the given byte, discarding unread bits, and the following 8
pulls yield exactly that byte's MSB-first bits; in particular the spec's
mid-sequence example with `0b0101_0101` and `0b1100_0000` holds. -/
theorem C6_reset (it : U8Iterator) (v : Nat) (hv : v < 256) :
    it.reset_to v = ⟨v, 8⟩ ∧
    (it.reset_to v).collect = byteBitsMSB v ∧
    (U8Iterator.runN 4 (U8Iterator.fromU8 85)).1 =
      [some false, some true, some false, some true] ∧
    (U8Iterator.runN 3 ((U8Iterator.runN 4 (U8Iterator.fromU8 85)).2.reset_to 192)).1 =
      [some true, some true, some false] :=
  ⟨rfl, collect_state v 8 (le_refl 8), by decide, by decide⟩

/-- Witness for C6 at a mid-sequence state and a concrete byte. -/
theorem C6_reset_witness :
    U8Iterator.reset_to ⟨7, 3⟩ 170 = ⟨170, 8⟩ ∧
    (U8Iterator.reset_to ⟨7, 3⟩ 170).collect = byteBitsMSB 170 ∧
    (U8Iterator.runN 4 (U8Iterator.fromU8 85)).1 =
      [some false, some true, some false, some true] ∧
    (U8Iterator.runN 3 ((U8Iterator.runN 4 (U8Iterator.fromU8 85)).2.reset_to 192)).1 =
      [some true, some true, some false] :=
  C6_reset ⟨7, 3⟩ 170 (by decide)

/-- Claim C7: any byte iterator with remaining count 0 — in particular the
one built by `empty()` — yields end-of-sequence on every pull, arbitrarily
many times, with no state change. -/
theorem C7_empty_stuck (it : U8Iterator) (h : it.remaining = 0) (n : Nat) :
    U8Iterator.runN n it = (List.replicate n none, it) ∧
    U8Iterator.empty.remaining = 0 ∧
    it.next = (none, it) :=
  ⟨runN_stuck it h n, rfl, U8Iterator.next_zero it h⟩

/-- Witness for C7: 100 pulls on `empty()` all yield nothing. -/
theorem C7_empty_stuck_witness :
    U8Iterator.runN 100 U8Iterator.empty = (List.replicate 100 none, U8Iterator.empty) ∧
    U8Iterator.empty.remaining = 0 ∧
    U8Iterator.empty.next = (none, U8Iterator.empty) :=
  C7_empty_stuck U8Iterator.empty rfl 100

/-- Claim C8: `size_hint` reports the exact remaining count as both bounds
for every state, and on a freshly seeded iterator it starts at 8 and drops by
exactly 1 per successful pull down to 0. -/
theorem C8_size_hint (v k : Nat) (hk : k ≤ 8) :
    (∀ it : U8Iterator, it.size_hint = (it.remaining, some it.remaining)) ∧
    (U8Iterator.pullN k (U8Iterator.fromU8 v)).size_hint = (8 - k, some (8 - k)) ∧
    (k < 8 → (U8Iterator.pullN k (U8Iterator.fromU8 v)).next.1.isSome = true) := by
  have hrem : (U8Iterator.pullN k (U8Iterator.fromU8 v)).remaining = 8 - k :=
    pullN_remaining k (U8Iterator.fromU8 v) hk
  refine ⟨fun it => rfl, ?_, ?_⟩
  · rw [U8Iterator.size_hint, hrem]
  · intro hlt
    rw [U8Iterator.next_pos _ (by rw [hrem]; omega)]
    rfl

/-- Witness for C8 after 3 pulls on the byte `0b1010_1010`. -/
theorem C8_size_hint_witness :
    (∀ it : U8Iterator, it.size_hint = (it.remaining, some it.remaining)) ∧
    (U8Iterator.pullN 3 (U8Iterator.fromU8 170)).size_hint = (8 - 3, some (8 - 3)) ∧
    (3 < 8 → (U8Iterator.pullN 3 (U8Iterator.fromU8 170)).next.1.isSome = true) :=
  C8_size_hint 170 3 (by decide)

/-- Claim C9: every byte-iterator operation is total: the invariant
`remaining ≤ 8 ∧ value < 256` holds after every operation, the decrement is
guarded so it never underflows (an exhausted pull changes nothing), and the
left shift stays within the 8-bit width. -/
theorem C9_safety :
    U8Iterator.Inv U8Iterator.empty ∧
    (∀ (it : U8Iterator) (v : Nat), v < 256 → U8Iterator.Inv (it.reset_to v)) ∧
    (∀ v : Nat, v < 256 → U8Iterator.Inv (U8Iterator.fromU8 v)) ∧
    (∀ it : U8Iterator, U8Iterator.Inv it → U8Iterator.Inv it.next.2) ∧
    (∀ it : U8Iterator, it.next.1.isSome = true → it.next.2.remaining + 1 = it.remaining) ∧
    (∀ it : U8Iterator, it.remaining = 0 → it.next.2 = it) ∧
    (∀ it : U8Iterator, it.remaining ≠ 0 → it.next.2.value < 256) ∧
    (∀ it : U8Iterator, it.size_hint = (it.remaining, some it.remaining)) := by
  refine ⟨⟨by decide, by decide⟩, fun it v hv => ⟨le_refl 8, hv⟩,
    fun v hv => ⟨le_refl 8, hv⟩, ?_, ?_, ?_, ?_, fun it => rfl⟩
  · intro it hinv
    obtain ⟨h1, h2⟩ := hinv
    by_cases h : it.remaining = 0
    · rw [U8Iterator.next_zero it h]
      exact ⟨h1, h2⟩
    · rw [U8Iterator.next_pos it h]
      refine ⟨?_, ?_⟩
      · show it.remaining - 1 ≤ 8
        omega
      · show (it.value <<< 1) % 256 < 256
        exact Nat.mod_lt _ (by norm_num)
  · intro it hs
    by_cases h : it.remaining = 0
    · rw [U8Iterator.next_zero it h] at hs
      simp at hs
    · rw [U8Iterator.next_pos it h]
      simp
      omega
  · intro it h
    rw [U8Iterator.next_zero it h]
  · intro it h
    rw [U8Iterator.next_pos it h]
    show (it.value <<< 1) % 256 < 256
    exact Nat.mod_lt _ (by norm_num)

/-- Witness for C9 at the byte `200`. -/
theorem C9_safety_witness :
    U8Iterator.Inv (U8Iterator.fromU8 200) ∧
    U8Iterator.Inv (U8Iterator.fromU8 200).next.2 ∧
    (U8Iterator.fromU8 200).next.2.remaining + 1 = (U8Iterator.fromU8 200).remaining :=
  ⟨C9_safety.2.2.1 200 (by decide),
    C9_safety.2.2.2.1 _ (C9_safety.2.2.1 200 (by decide)),
    C9_safety.2.2.2.2.1 _ (by decide)⟩

/-- Claim C10: `Color::new(r, g, b)` stores its first argument in the `red`
field, its second in `green`, and its third in `blue`, although the struct
declares its fields in the order green, red, blue. -/
theorem C10_color_new (r g b : Nat) (hr : r < 256) (hg : g < 256) (hb : b < 256) :
    (Color.new r g b).red = r ∧ (Color.new r g b).green = g ∧ (Color.new r g b).blue = b :=
  ⟨rfl, rfl, rfl⟩

/-- Witness for C10 at distinct channel values. -/
theorem C10_color_new_witness :
    (Color.new 1 2 3).red = 1 ∧ (Color.new 1 2 3).green = 2 ∧ (Color.new 1 2 3).blue = 3 :=
  C10_color_new 1 2 3 (by decide) (by decide) (by decide)

end ColorBits
